import Mathlib

/-!
Verification development for the seaice3p mushy-layer simulation code.

Definitions below are shallow embeddings of the Python source
(src/celestine and the top-level modules).  Fields on the center grid
have length I, fields on the edge grid length I+1 and ghost-padded
fields length I+2.  Exact arithmetic (rationals) is used for the grid,
flux and control-flow embeddings; real numbers are used for the
thermodynamic closure, which involves square roots and real powers.
-/

namespace Seaice3p

/-! ## Grid (src/celestine/grids.py) -/

/-- Embedding of get_difference_matrix from src/celestine/grids.py:
a banded forward-difference operator with D[i,i] = -1 and D[i,i+1] = 1,
divided by the grid step. -/
def get_difference_matrix (I : ℕ) (step : ℚ) : Matrix (Fin I) (Fin (I + 1)) ℚ :=
  fun i j => (if j = Fin.castSucc i then -1 else if j = Fin.succ i then 1 else 0) / step

/-- Embedding of the edge coordinate array from initialise_grids in
src/celestine/grids.py: edges i = -1 + i * step with step = 1 / I. -/
def gridEdges (I : ℕ) : List ℚ :=
  (List.range (I + 1)).map (fun i : ℕ => -1 + (i : ℚ) * (1 / (I : ℚ)))

/-! ## Explicit time update (src/celestine/flux.py) -/

/-- Embedding of take_forward_euler_step from src/celestine/flux.py:
the updated quantity is Q - dt * (D_e matmul flux). -/
def take_forward_euler_step (I : ℕ) (q : Fin I → ℚ) (flux : Fin (I + 1) → ℚ)
    (timestep : ℚ) (D : Matrix (Fin I) (Fin (I + 1)) ℚ) : Fin I → ℚ :=
  fun i => q i - timestep * (D.mulVec flux) i

lemma difference_matrix_row (I : ℕ) (step : ℚ) (flux : Fin (I + 1) → ℚ) (i : Fin I) :
    ((get_difference_matrix I step).mulVec flux) i =
      (flux (Fin.succ i) - flux (Fin.castSucc i)) / step := by
  classical
  unfold Matrix.mulVec Matrix.dotProduct get_difference_matrix
  have hne : (Fin.castSucc i) ≠ (Fin.succ i) := by
    intro h
    have := congrArg Fin.val h
    simp [Fin.castSucc, Fin.succ] at this
  have hsum :
      ∀ j : Fin (I + 1),
        (if j = Fin.castSucc i then (-1 : ℚ) else if j = Fin.succ i then 1 else 0) / step
            * flux j =
          ((if j = Fin.succ i then flux j else 0)
            - (if j = Fin.castSucc i then flux j else 0)) / step := by
    intro j
    by_cases h1 : j = Fin.castSucc i
    · subst h1
      simp only [if_pos rfl, if_neg hne]
      simp
      ring
    · by_cases h2 : j = Fin.succ i
      · subst h2
        simp only [if_neg h1, if_pos rfl]
        simp
        ring
      · simp only [if_neg h1, if_neg h2]
        ring
  calc
    ∑ j, (if j = Fin.castSucc i then (-1 : ℚ) else if j = Fin.succ i then 1 else 0) / step
        * flux j
      = ∑ j, ((if j = Fin.succ i then flux j else 0)
          - (if j = Fin.castSucc i then flux j else 0)) / step := by
        exact Finset.sum_congr rfl (fun j _ => hsum j)
    _ = ((∑ j, if j = Fin.succ i then flux j else 0)
          - ∑ j, if j = Fin.castSucc i then flux j else 0) / step := by
        rw [← Finset.sum_sub_distrib, Finset.sum_div]
    _ = (flux (Fin.succ i) - flux (Fin.castSucc i)) / step := by
        rw [Finset.sum_ite_eq' Finset.univ (Fin.succ i) flux,
          Finset.sum_ite_eq' Finset.univ (Fin.castSucc i) flux]
        simp

/-- Claim C4.  The explicit forward-Euler update conserves the cell sum of
the conserved quantity whenever the first and last edge fluxes vanish
(zero-flux boundaries): the flux-divergence term alone creates or destroys
nothing, for every field, timestep and step size. -/
theorem c4_forward_euler_conserves_sum (I : ℕ) (step timestep : ℚ)
    (q : Fin I → ℚ) (flux : Fin (I + 1) → ℚ)
    (hbot : flux 0 = 0) (htop : flux (Fin.last I) = 0) :
    (∑ i, take_forward_euler_step I q flux timestep (get_difference_matrix I step) i)
      = ∑ i, q i := by
  classical
  unfold take_forward_euler_step
  rw [Finset.sum_sub_distrib]
  have hrow : ∀ i : Fin I,
      ((get_difference_matrix I step).mulVec flux) i =
        (flux (Fin.succ i) - flux (Fin.castSucc i)) / step :=
    difference_matrix_row I step flux
  have htel :
      (∑ i : Fin I, ((get_difference_matrix I step).mulVec flux) i) = 0 := by
    classical
    have hfun : ∀ i : Fin I,
        ((get_difference_matrix I step).mulVec flux) i =
          ((fun n : ℕ => if h : n < I + 1 then flux ⟨n, h⟩ else 0) (i.val + 1)
            - (fun n : ℕ => if h : n < I + 1 then flux ⟨n, h⟩ else 0) i.val) / step := by
      intro i
      rw [hrow i]
      have h1 : (i.val + 1) < I + 1 := by omega
      have h2 : i.val < I + 1 := by omega
      simp only [dif_pos h1, dif_pos h2]
      congr 2
    set g : ℕ → ℚ := fun n => if h : n < I + 1 then flux ⟨n, h⟩ else 0 with hg
    calc
      (∑ i : Fin I, ((get_difference_matrix I step).mulVec flux) i)
          = ∑ i : Fin I, (g (i.val + 1) - g i.val) / step := by
            exact Finset.sum_congr rfl (fun i _ => hfun i)
      _ = (∑ i : Fin I, (g (i.val + 1) - g i.val)) / step := by
            rw [Finset.sum_div]
      _ = (∑ i ∈ Finset.range I, (g (i + 1) - g i)) / step := by
            rw [Fin.sum_univ_eq_sum_range (fun n => g (n + 1) - g n) I]
      _ = (g I - g 0) / step := by rw [Finset.sum_range_sub g I]
      _ = 0 := by
            have hI : (I : ℕ) < I + 1 := by omega
            have h0 : (0 : ℕ) < I + 1 := by omega
            have hlast : g I = flux (Fin.last I) := by simp [hg, dif_pos hI, Fin.last]
            have hzero : (⟨0, h0⟩ : Fin (I + 1)) = 0 := Fin.ext (by simp)
            have hfirst : g 0 = flux 0 := by
              simp only [hg, dif_pos h0, hzero]
            rw [hlast, hfirst, hbot, htop]
            simp
  have : (∑ i : Fin I, timestep * ((get_difference_matrix I step).mulVec flux) i)
      = timestep * ∑ i : Fin I, ((get_difference_matrix I step).mulVec flux) i := by
    rw [Finset.mul_sum]
  rw [this, htel]
  ring

/-- Witness for claim C4 at a concrete input: three edges with interior
flux 5 and zero boundary fluxes, a two-cell field (1, 2), timestep 3 and
step 1/2. -/
theorem c4_forward_euler_conserves_sum_witness :
    (∑ i, take_forward_euler_step 2 ![1, 2] ![0, 5, 0] 3
        (get_difference_matrix 2 (1/2)) i) = ∑ i, (![1, 2] : Fin 2 → ℚ) i :=
  c4_forward_euler_conserves_sum 2 (1/2) 3 ![1, 2] ![0, 5, 0] rfl rfl

/-! ## Gas velocity guard (src/celestine/solvers/scipy.py and reduced_solver.py) -/

/-- Embedding of prevent_gas_rise_into_saturated_cell (identical in
src/celestine/solvers/scipy.py and src/celestine/solvers/reduced_solver.py).
Ghost-padded fields have length I+2 and the edge velocity length I+1;
dropping the lower ghost cell aligns edge i with the cell above it at
ghost index i+1.  The source computes the solid fraction above as
1 - liquid_fraction, zeroes the velocity wherever
gas_fraction + solid_fraction is at least 1, and then restores the topmost
edge value. -/
def prevent_gas_rise_into_saturated_cell (n : ℕ) (Vg : Fin (n + 1) → ℚ)
    (gas_fraction liquid_fraction : Fin (n + 2) → ℚ) : Fin (n + 1) → ℚ :=
  Function.update
    (fun i => if 1 ≤ gas_fraction i.succ + (1 - liquid_fraction i.succ) then 0 else Vg i)
    (Fin.last n) (Vg (Fin.last n))

/-- Claim C7.  After the gas-velocity guard, an edge whose cell immediately
above has gas fraction plus solid fraction at least 1 carries velocity 0,
every other edge keeps its input value, and the topmost boundary edge
always keeps its input value regardless of the state above it.  The solid
fraction is related to the liquid fraction by the closure identity
solid + liquid = 1. -/
theorem c7_saturated_cell_guard (n : ℕ) (Vg : Fin (n + 1) → ℚ)
    (gf lf sf : Fin (n + 2) → ℚ) (hsf : ∀ j, sf j + lf j = 1) :
    (∀ i : Fin (n + 1), i ≠ Fin.last n →
      (1 ≤ gf i.succ + sf i.succ →
        prevent_gas_rise_into_saturated_cell n Vg gf lf i = 0) ∧
      (gf i.succ + sf i.succ < 1 →
        prevent_gas_rise_into_saturated_cell n Vg gf lf i = Vg i)) ∧
    prevent_gas_rise_into_saturated_cell n Vg gf lf (Fin.last n) = Vg (Fin.last n) := by
  classical
  constructor
  · intro i hi
    have hs := hsf i.succ
    unfold prevent_gas_rise_into_saturated_cell
    rw [Function.update_noteq hi]
    by_cases hc : (1 : ℚ) ≤ gf i.succ + (1 - lf i.succ)
    · rw [if_pos hc]
      exact ⟨fun _ => rfl, fun hlt => absurd hc (by linarith)⟩
    · rw [if_neg hc]
      exact ⟨fun hge => absurd hge (by push_neg at hc; linarith), fun _ => rfl⟩
  · unfold prevent_gas_rise_into_saturated_cell
    rw [Function.update_same]

/-- Witness for claim C7: two edges, the cell above the lower edge is
saturated (gas fraction 1, solid fraction 1) so that edge is zeroed,
and the topmost edge keeps its value. -/
theorem c7_saturated_cell_guard_witness :
    (∀ i : Fin 2, i ≠ Fin.last 1 →
      ((1 : ℚ) ≤ (![0, 1, 0] : Fin 3 → ℚ) i.succ + (![1, 1, 0] : Fin 3 → ℚ) i.succ →
        prevent_gas_rise_into_saturated_cell 1 ![2, 3] ![0, 1, 0] ![0, 0, 1] i = 0) ∧
      ((![0, 1, 0] : Fin 3 → ℚ) i.succ + (![1, 1, 0] : Fin 3 → ℚ) i.succ < 1 →
        prevent_gas_rise_into_saturated_cell 1 ![2, 3] ![0, 1, 0] ![0, 0, 1] i = ![2, 3] i)) ∧
    prevent_gas_rise_into_saturated_cell 1 ![2, 3] ![0, 1, 0] ![0, 0, 1] (Fin.last 1)
      = ![2, 3] (Fin.last 1) :=
  c7_saturated_cell_guard 1 ![2, 3] ![0, 1, 0] ![0, 0, 1] ![1, 1, 0]
    (by intro j; fin_cases j <;> norm_num)

/-! ## Reduced gas partition (src/celestine/enthalpy_method.py, ReducedEnthalpyMethod) -/

/-- Embedding of ReducedEnthalpyMethod.calculate_gas_fraction: with
saturation threshold chi times liquid fraction, excess bulk gas is
exsolved as free gas fraction and below the threshold the gas fraction
is zero. -/
noncomputable def reduced_calculate_gas_fraction (chi gas lf : ℝ) : ℝ :=
  if chi * lf ≤ gas then gas - chi * lf else 0

/-- Embedding of ReducedEnthalpyMethod.calculate_dissolved_gas: dissolved
gas is pinned at 1 at or above the saturation threshold and is the ratio
of bulk gas to the threshold below it. -/
noncomputable def reduced_calculate_dissolved_gas (chi gas lf : ℝ) : ℝ :=
  if chi * lf ≤ gas then 1 else gas / (chi * lf)

/-- Claim C10.  The reduced gas partition is total at complete freezing:
with liquid fraction 0 and nonnegative bulk gas the saturation threshold
is 0, the dissolved gas is exactly 1 and the gas fraction is the full
bulk gas; more generally, whenever bulk gas reaches the threshold the
singular quotient branch is not used: the dissolved gas is 1 and the gas
fraction is the excess over the threshold. -/
theorem c10_gas_partition_total (chi gas lf : ℝ) :
    (lf = 0 → 0 ≤ gas →
      chi * lf = 0 ∧ reduced_calculate_dissolved_gas chi gas lf = 1 ∧
        reduced_calculate_gas_fraction chi gas lf = gas) ∧
    (chi * lf ≤ gas →
      reduced_calculate_dissolved_gas chi gas lf = 1 ∧
        reduced_calculate_gas_fraction chi gas lf = gas - chi * lf) := by
  constructor
  · rintro rfl hg
    refine ⟨by ring, ?_, ?_⟩
    · unfold reduced_calculate_dissolved_gas
      rw [if_pos (by simpa using hg)]
    · unfold reduced_calculate_gas_fraction
      rw [if_pos (by simpa using hg)]
      ring
  · intro h
    refine ⟨?_, ?_⟩
    · unfold reduced_calculate_dissolved_gas
      rw [if_pos h]
    · unfold reduced_calculate_gas_fraction
      rw [if_pos h]

/-- Witness for claim C10 at chi = 29/1000, bulk gas 1/2 and liquid
fraction 0 (complete freezing). -/
theorem c10_gas_partition_total_witness :
    (29 / 1000 : ℝ) * 0 = 0 ∧ reduced_calculate_dissolved_gas (29 / 1000) (1 / 2) 0 = 1 ∧
      reduced_calculate_gas_fraction (29 / 1000) (1 / 2) 0 = 1 / 2 :=
  (c10_gas_partition_total (29 / 1000) (1 / 2) 0).1 rfl (by norm_num)

/-! ## Per-step salt guard (src/celestine/solvers/template.py and scipy.py) -/

/-- Error message raised by the solve loops on an unphysical salt field. -/
def saltCrashMsg : String := "salt crash"

/-- Primary conserved fields of one solver state (center or ghost grid). -/
structure SimState where
  enthalpy : List ℚ
  salt : List ℚ
  gas : List ℚ
deriving DecidableEq

/-- Model of np.min on a field array (the minimum entry; 0 on the empty
list, which the solvers never produce). -/
def npMin : List ℚ → ℚ
  | [] => 0
  | x :: xs => xs.foldl min x

/-- Embedding of the stepping loop of SolverTemplate.solve in
src/celestine/solvers/template.py: after each advance, if the minimum of
the salt field drops below minus the concentration ratio the loop raises
ValueError (salt crash) at once; otherwise it continues stepping.  The
advance function abstracts the concrete take_timestep of the subclass. -/
def templateSolveLoop (advance : SimState → SimState) (Cr : ℚ) :
    ℕ → SimState → Except String SimState
  | 0, s => Except.ok s
  | n + 1, s =>
    let s2 := advance s
    if npMin s2.salt < -Cr then Except.error saltCrashMsg
    else templateSolveLoop advance Cr n s2

/-- Iterated stepping with no monitoring, as performed inside
scipy.integrate.solve_ivp on behalf of ScipySolver. -/
def scipyIntegrate (advance : SimState → SimState) : ℕ → SimState → SimState
  | 0, s => s
  | n + 1, s => scipyIntegrate advance n (advance s)

/-- Embedding of the control flow of ScipySolver.solve in
src/celestine/solvers/scipy.py: the whole integration is handed to
solve_ivp, the stored solution is written out, and status 0 is returned;
no per-step salt check is performed anywhere in this override of the
template solve method. -/
def scipySolve (advance : SimState → SimState) (n : ℕ) (s : SimState) : SimState × ℕ :=
  (scipyIntegrate advance n s, 0)

/-- Concrete advance map for the C5 counterexample: each step lowers every
salt entry by 1 and keeps the other fields. -/
def c5advance : SimState → SimState :=
  fun s => ⟨s.enthalpy, s.salt.map (fun x => x - 1), s.gas⟩

/-- Counterexample to claim C5 as stated: with concentration ratio 17/100,
already after the first step the salt minimum is below -17/100, yet the
Scipy solver variant takes all three steps and returns success status 0
(it never aborts), while the template solve loop does abort immediately
on the same input.  Hence the salt guard is not applied in every solver
variant. -/
theorem c5_counterexample :
    npMin ((c5advance ⟨[0], [0], [0]⟩).salt) < -(17 / 100 : ℚ) ∧
    (scipySolve c5advance 3 ⟨[0], [0], [0]⟩).2 = 0 ∧
    npMin ((scipySolve c5advance 3 ⟨[0], [0], [0]⟩).1.salt) < -(17 / 100 : ℚ) ∧
    templateSolveLoop c5advance (17 / 100) 3 ⟨[0], [0], [0]⟩
      = Except.error saltCrashMsg := by
  refine ⟨by norm_num [c5advance, npMin], rfl, ?_, ?_⟩
  · norm_num [scipySolve, scipyIntegrate, c5advance, npMin]
  · have h : npMin ((c5advance ⟨[0], [0], [0]⟩).salt) < -(17 / 100 : ℚ) := by
      norm_num [c5advance, npMin]
    simp only [templateSolveLoop]
    rw [if_pos h]

/-- Claim C5, amended.  In the solver variants driven by the template
solve loop, as soon as a step produces a salt field whose minimum is
below minus the concentration ratio, the run aborts immediately with the
fatal salt-crash error, regardless of how many steps remain; the Scipy
(RK23) variant performs no such check. -/
theorem c5_template_salt_abort (advance : SimState → SimState) (Cr : ℚ) (n : ℕ)
    (s : SimState) (h : npMin (advance s).salt < -Cr) :
    templateSolveLoop advance Cr (n + 1) s = Except.error saltCrashMsg := by
  simp only [templateSolveLoop]
  rw [if_pos h]

/-- Witness for the amended claim C5 at a concrete input with five
remaining steps. -/
theorem c5_template_salt_abort_witness :
    templateSolveLoop c5advance (17 / 100) 5 ⟨[2], [0], [0]⟩
      = Except.error saltCrashMsg :=
  c5_template_salt_abort c5advance (17 / 100) 4 ⟨[2], [0], [0]⟩
    (by norm_num [c5advance, npMin])

/-! ## Pre-solve stability checks (src/params.py and semi_explicit_solver.py) -/

/-- Message reported for a violated buoyancy CFL condition. -/
def cflMsg : String := "unstable CFL for gas advection"

/-- Message reported for a violated thermal diffusion stability bound. -/
def diffusionMsg : String := "unstable thermal diffusion"

/-- The fields of the Params dataclass in src/params.py used by the
stability checks: buoyancy scale B, timestep, and cell count I. -/
structure Params where
  B : ℚ
  timestep : ℚ
  I : ℕ

/-- Grid step property of Params: step = 1 / I. -/
def Params.step (p : Params) : ℚ := 1 / p.I

/-- Diffusion Courant number property of Params: timestep / step squared;
must be below 0.5 for stability of the temperature diffusion terms. -/
def Params.Diff_num (p : Params) : ℚ := p.timestep / p.step ^ 2

/-- Buoyancy Courant number property of Params: B * timestep / step; must
be below 1 for the CFL condition of gas buoyant transport. -/
def Params.Courant_gas (p : Params) : ℚ := p.B * p.timestep / p.step

/-- Embedding of Params.check_buoyancy_CFL. -/
def Params.check_buoyancy_CFL (p : Params) : Bool := decide (p.Courant_gas > 1)

/-- Embedding of Params.check_thermal_diffusion_stability. -/
def Params.check_thermal_diffusion_stability (p : Params) : Bool :=
  decide (p.Diff_num > 1 / 2)

/-- Embedding of the pre-solve check block at the head of solve in
src/celestine/solvers/semi_explicit_solver.py: a violated buoyancy CFL
check returns status 1 with the CFL message, otherwise a violated thermal
diffusion check returns status 1 with the diffusion message, otherwise
the solve proceeds (modelled as none). -/
def preSolveChecks (p : Params) : Option (ℕ × String) :=
  if p.check_buoyancy_CFL then some (1, cflMsg)
  else if p.check_thermal_diffusion_stability then some (1, diffusionMsg)
  else none

/-- Counterexample to claim C6 as stated.  First, the quantity written
B * step / step in the claim equals B, and a config with B = 2 > 1 but a
small timestep passes both pre-solve checks, so it does not report
unstable CFL: the cited threshold quantity is actually B * timestep / step.
Second, a config whose diffusion number exceeds 0.5 but whose buoyancy
Courant number also exceeds 1 reports the CFL message, not the thermal
diffusion message. -/
theorem c6_counterexample :
    ((Params.mk 2 (1 / 10) 1).B * (Params.mk 2 (1 / 10) 1).step
        / (Params.mk 2 (1 / 10) 1).step > 1
      ∧ preSolveChecks (Params.mk 2 (1 / 10) 1) = none) ∧
    ((Params.mk 100 1 10).Diff_num > 1 / 2
      ∧ preSolveChecks (Params.mk 100 1 10) = some (1, cflMsg)
      ∧ cflMsg ≠ diffusionMsg) := by
  refine ⟨⟨by norm_num [Params.step], ?_⟩, ⟨by norm_num [Params.Diff_num, Params.step], ?_, ?_⟩⟩
  · have h1 : (Params.mk 2 (1 / 10) 1).check_buoyancy_CFL = false := by
      simp only [Params.check_buoyancy_CFL, decide_eq_false_iff_not]
      norm_num [Params.Courant_gas, Params.step]
    have h2 : (Params.mk 2 (1 / 10) 1).check_thermal_diffusion_stability = false := by
      simp only [Params.check_thermal_diffusion_stability, decide_eq_false_iff_not]
      norm_num [Params.Diff_num, Params.step]
    simp only [preSolveChecks, h1, h2]
    simp
  · have h1 : (Params.mk 100 1 10).check_buoyancy_CFL = true := by
      simp only [Params.check_buoyancy_CFL, decide_eq_true_eq]
      norm_num [Params.Courant_gas, Params.step]
    simp [preSolveChecks, h1]
  · decide

/-- Claim C6, amended.  The pre-solve checks report failure before any
step: a config with buoyancy Courant number B * timestep / step above 1
returns status 1 with the CFL message; a config passing the CFL check but
with timestep / step squared above 0.5 returns status 1 with the thermal
diffusion message; a config violating neither threshold passes the
pre-solve checks. -/
theorem c6_pre_solve_checks (p : Params) :
    (p.Courant_gas > 1 → preSolveChecks p = some (1, cflMsg)) ∧
    (p.Courant_gas ≤ 1 → p.Diff_num > 1 / 2 →
      preSolveChecks p = some (1, diffusionMsg)) ∧
    (p.Courant_gas ≤ 1 → p.Diff_num ≤ 1 / 2 → preSolveChecks p = none) := by
  refine ⟨?_, ?_, ?_⟩
  · intro h
    have h1 : p.check_buoyancy_CFL = true := by
      simp only [Params.check_buoyancy_CFL, decide_eq_true_eq]; exact h
    simp [preSolveChecks, h1]
  · intro h hd
    have h1 : p.check_buoyancy_CFL = false := by
      simp only [Params.check_buoyancy_CFL, decide_eq_false_iff_not]; exact not_lt.mpr h
    have h2 : p.check_thermal_diffusion_stability = true := by
      simp only [Params.check_thermal_diffusion_stability, decide_eq_true_eq]; exact hd
    simp [preSolveChecks, h1, h2]
  · intro h hd
    have h1 : p.check_buoyancy_CFL = false := by
      simp only [Params.check_buoyancy_CFL, decide_eq_false_iff_not]; exact not_lt.mpr h
    have h2 : p.check_thermal_diffusion_stability = false := by
      simp only [Params.check_thermal_diffusion_stability, decide_eq_false_iff_not]
      exact not_lt.mpr hd
    simp [preSolveChecks, h1, h2]

/-- Witness for the amended claim C6: a config with buoyancy Courant
number 1000 reports status 1 with the CFL message. -/
theorem c6_pre_solve_checks_witness :
    preSolveChecks (Params.mk 100 1 10) = some (1, cflMsg) :=
  (c6_pre_solve_checks (Params.mk 100 1 10)).1
    (by norm_num [Params.Courant_gas, Params.step])

/-! ## Gas wall-drag function (src/celestine/velocities.py) -/

/-- Embedding of calculate_wall_drag_function from
src/celestine/velocities.py, per cell edge: drag is 1 for a negative
bubble size fraction, (1 - lambda) to the drag exponent for lambda in
[0, 1), and 0 for lambda at least 1.  The source assigns by the three
mutually exclusive masks (negative, intermediate, large), which the
nested conditional reproduces exactly. -/
noncomputable def calculate_wall_drag_function (r lam : ℝ) : ℝ :=
  if lam < 0 then 1
  else if lam < 1 then (1 - lam) ^ r
  else 0

/-- Counterexample to claim C8 as stated: at bubble size fraction -1
(and drag exponent 6) the code returns drag 1, not 0, so the function is
not 0 for every lambda outside [0, 1]. -/
theorem c8_counterexample :
    calculate_wall_drag_function 6 (-1) = 1 ∧ (1 : ℝ) ≠ 0 := by
  constructor
  · unfold calculate_wall_drag_function
    rw [if_pos (by norm_num)]
  · norm_num

/-- Claim C8, amended.  For a nonnegative drag exponent the wall-drag
function is monotonically non-increasing on [0, 1], takes value 1 at 0
and 0 at 1, equals 1 for every negative lambda (no bubble) and 0 for
every lambda at least 1 (fully obstructed). -/
theorem c8_wall_drag_properties (r : ℝ) (hr : 0 ≤ r) :
    (∀ a b : ℝ, 0 ≤ a → a ≤ b → b ≤ 1 →
      calculate_wall_drag_function r b ≤ calculate_wall_drag_function r a) ∧
    calculate_wall_drag_function r 0 = 1 ∧
    calculate_wall_drag_function r 1 = 0 ∧
    (∀ lam : ℝ, lam < 0 → calculate_wall_drag_function r lam = 1) ∧
    (∀ lam : ℝ, 1 ≤ lam → calculate_wall_drag_function r lam = 0) := by
  have hval : ∀ lam : ℝ, 0 ≤ lam → lam < 1 →
      calculate_wall_drag_function r lam = (1 - lam) ^ r := by
    intro lam h0 h1
    unfold calculate_wall_drag_function
    rw [if_neg (not_lt.mpr h0), if_pos h1]
  have hzero : ∀ lam : ℝ, 1 ≤ lam → calculate_wall_drag_function r lam = 0 := by
    intro lam h1
    unfold calculate_wall_drag_function
    rw [if_neg (by linarith), if_neg (not_lt.mpr h1)]
  have hnonneg : ∀ lam : ℝ, 0 ≤ lam → 0 ≤ calculate_wall_drag_function r lam := by
    intro lam h0
    rcases lt_or_le lam 1 with h1 | h1
    · rw [hval lam h0 h1]
      exact Real.rpow_nonneg (by linarith) r
    · rw [hzero lam h1]
  refine ⟨?_, ?_, hzero 1 le_rfl, ?_, hzero⟩
  · intro a b ha hab hb1
    rcases lt_or_le b 1 with hb | hb
    · rw [hval b (le_trans ha hab) hb, hval a ha (lt_of_le_of_lt hab hb)]
      exact Real.rpow_le_rpow (by linarith) (by linarith) hr
    · rw [hzero b hb]
      exact hnonneg a ha
  · rw [hval 0 le_rfl (by norm_num)]
    norm_num
  · intro lam hneg
    unfold calculate_wall_drag_function
    rw [if_pos hneg]

/-- Witness for the amended claim C8 at drag exponent 6. -/
theorem c8_wall_drag_properties_witness :
    (∀ a b : ℝ, 0 ≤ a → a ≤ b → b ≤ 1 →
      calculate_wall_drag_function 6 b ≤ calculate_wall_drag_function 6 a) ∧
    calculate_wall_drag_function 6 0 = 1 ∧
    calculate_wall_drag_function 6 1 = 0 ∧
    (∀ lam : ℝ, lam < 0 → calculate_wall_drag_function 6 lam = 1) ∧
    (∀ lam : ℝ, 1 ≤ lam → calculate_wall_drag_function 6 lam = 0) :=
  c8_wall_drag_properties 6 (by norm_num)

/-! ## Ice-ocean boundary depth (src/celestine/brine_drainage.py) -/

/-- Fatal message when the ice reaches the bottom of the domain. -/
def iceBottomMsg : String := "Ice ocean interface has reached bottom of domain"

/-- Model of np.argmax applied to the boolean array (liquid_fraction < 1):
the index of the first entry below 1, as an option (np.argmax returns 0
on an all-false array, recovered below with getD 0). -/
def npArgmaxLtOne : List ℚ → Option ℕ
  | [] => none
  | x :: xs => if x < 1 then some 0 else (npArgmaxLtOne xs).map (· + 1)

/-- Embedding of calculate_ice_ocean_boundary_depth from
src/celestine/brine_drainage.py: index = np.argmax(liquid_fraction < 1),
reset to the last edge index when the whole field equals 1, error when
the resulting index is 0, otherwise minus the edge coordinate at the
index.  getD replaces the in-range numpy indexing. -/
def calculate_ice_ocean_boundary_depth (lf edges : List ℚ) : Except String ℚ :=
  let index0 := (npArgmaxLtOne lf).getD 0
  let index := if lf.all (fun x => x == 1) then edges.length - 1 else index0
  if index = 0 then Except.error iceBottomMsg
  else Except.ok (-(edges.getD index 0))

lemma npArgmaxLtOne_eq_none (lf : List ℚ) (h : ∀ x ∈ lf, ¬x < 1) :
    npArgmaxLtOne lf = none := by
  induction lf with
  | nil => rfl
  | cons x xs ih =>
    unfold npArgmaxLtOne
    rw [if_neg (h x (List.mem_cons_self x xs)), ih (fun y hy => h y (List.mem_cons_of_mem x hy))]
    rfl

lemma npArgmaxLtOne_first (lf : List ℚ) (j : ℕ) (hj : j < lf.length)
    (hbefore : ∀ k, (hk : k < j) → ¬lf.get ⟨k, by omega⟩ < 1)
    (hat : lf.get ⟨j, hj⟩ < 1) :
    npArgmaxLtOne lf = some j := by
  induction lf generalizing j with
  | nil => simp at hj
  | cons x xs ih =>
    unfold npArgmaxLtOne
    cases j with
    | zero =>
      rw [if_pos (by simpa using hat)]
    | succ j =>
      have hx : ¬x < 1 := by
        have := hbefore 0 (by omega)
        simpa using this
      rw [if_neg hx]
      have hj2 : j < xs.length := by simpa using hj
      have h1 : npArgmaxLtOne xs = some j := by
        refine ih j hj2 ?_ ?_
        · intro k hk
          have := hbefore (k + 1) (by omega)
          simpa using this
        · simpa using hat
      rw [h1]
      rfl

lemma npArgmaxLtOne_none_iff (lf : List ℚ) :
    npArgmaxLtOne lf = none ↔ ∀ x ∈ lf, ¬x < 1 := by
  constructor
  · induction lf with
    | nil =>
      intro _ x hx
      simp at hx
    | cons y ys ih =>
      intro h x hx
      unfold npArgmaxLtOne at h
      by_cases hy : y < 1
      · rw [if_pos hy] at h
        exact absurd h (by simp)
      · rw [if_neg hy] at h
        rcases List.mem_cons.mp hx with rfl | hx2
        · exact hy
        · rcases hmap : npArgmaxLtOne ys with _ | k
          · exact ih hmap x hx2
          · rw [hmap] at h
            exact absurd h (by simp)
  · exact npArgmaxLtOne_eq_none lf

lemma npArgmaxLtOne_some_zero (lf : List ℚ) (h : npArgmaxLtOne lf = some 0) :
    ∃ hl : 0 < lf.length, lf.get ⟨0, hl⟩ < 1 := by
  cases lf with
  | nil => exact absurd h (by simp [npArgmaxLtOne])
  | cons x xs =>
    by_cases hx : x < 1
    · exact ⟨by simp, by simpa using hx⟩
    · unfold npArgmaxLtOne at h
      rw [if_neg hx] at h
      rcases hmap : npArgmaxLtOne xs with _ | k
      · rw [hmap] at h
        exact absurd h (by simp)
      · rw [hmap] at h
        simp at h

lemma gridEdges_length (I : ℕ) : (gridEdges I).length = I + 1 := by
  unfold gridEdges
  rw [List.length_map, List.length_range]

lemma gridEdges_getD (I idx : ℕ) (h : idx ≤ I) :
    (gridEdges I).getD idx 0 = -1 + (idx : ℚ) * (1 / I) := by
  unfold gridEdges
  have hlt : idx < ((List.range (I + 1)).map
      (fun i : ℕ => (-1 : ℚ) + (i : ℚ) * (1 / (I : ℚ)))).length := by
    rw [List.length_map, List.length_range]; omega
  rw [List.getD_eq_getElem _ _ hlt, List.getElem_map, List.getElem_range]

/-- Claim C9.  Over the standard edge grid for I cells, assuming at least
one cell and liquid fractions at most 1: the computation fails with the
fatal bottom-frozen error exactly when the bottom-most cell has liquid
fraction below 1; it returns depth 0 when every cell is fully liquid; and
when the first cell from the bottom with liquid fraction below 1 has
index j above the bottom, it returns the positive depth 1 - j/I of that
cell's bottom edge (the edge coordinate at index j is -1 + j/I). -/
theorem c9_ice_ocean_boundary_depth (I : ℕ) (hI : 1 ≤ I) (lf : List ℚ)
    (hlen : lf.length = I) (hub : ∀ x ∈ lf, x ≤ 1) :
    (calculate_ice_ocean_boundary_depth lf (gridEdges I) = Except.error iceBottomMsg
        ↔ lf.get ⟨0, by omega⟩ < 1) ∧
    ((∀ x ∈ lf, x = 1) →
      calculate_ice_ocean_boundary_depth lf (gridEdges I) = Except.ok 0) ∧
    (∀ j, (hj : j < lf.length) → 0 < j →
      (∀ k, (hk : k < j) → ¬lf.get ⟨k, by omega⟩ < 1) → lf.get ⟨j, hj⟩ < 1 →
      calculate_ice_ocean_boundary_depth lf (gridEdges I)
          = Except.ok (1 - (j : ℚ) / I) ∧ 0 < 1 - (j : ℚ) / I) := by
  have hI0 : (0 : ℚ) < (I : ℚ) := by exact_mod_cast hI
  have hall_ok : (∀ x ∈ lf, x = 1) →
      calculate_ice_ocean_boundary_depth lf (gridEdges I) = Except.ok 0 := by
    intro hall
    have hallb : lf.all (fun x => x == 1) = true := by
      rw [List.all_eq_true]
      intro x hx
      simpa using hall x hx
    simp only [calculate_ice_ocean_boundary_depth]
    rw [if_pos hallb, gridEdges_length]
    have hidx : I + 1 - 1 = I := by omega
    rw [hidx, if_neg (by omega)]
    rw [gridEdges_getD I I le_rfl]
    congr 1
    field_simp
  refine ⟨⟨?_, ?_⟩, hall_ok, ?_⟩
  · intro herr
    by_contra hnot
    by_cases hall : ∀ x ∈ lf, x = 1
    · rw [hall_ok hall] at herr
      exact absurd herr (by simp)
    · have hallb : lf.all (fun x => x == 1) = false := by
        rcases hb : lf.all (fun x => x == 1) with _ | _
        · rfl
        · exfalso
          apply hall
          intro x hx
          have := (List.all_eq_true.mp hb) x hx
          simpa using this
      simp only [calculate_ice_ocean_boundary_depth] at herr
      rw [hallb] at herr
      simp only [Bool.false_eq_true, if_false] at herr
      by_cases hzero : (npArgmaxLtOne lf).getD 0 = 0
      · rcases harg : npArgmaxLtOne lf with _ | k
        · have hno : ∀ x ∈ lf, ¬x < 1 := (npArgmaxLtOne_none_iff lf).mp harg
          apply hall
          intro x hx
          exact le_antisymm (hub x hx) (not_lt.mp (hno x hx))
        · rw [harg] at hzero
          simp at hzero
          subst hzero
          obtain ⟨hl, hlt⟩ := npArgmaxLtOne_some_zero lf harg
          exact hnot (by convert hlt)
      · rw [if_neg hzero] at herr
        exact absurd herr (by simp)
  · intro h0
    have hallb : lf.all (fun x => x == 1) = false := by
      rcases hb : lf.all (fun x => x == 1) with _ | _
      · rfl
      · exfalso
        have := (List.all_eq_true.mp hb) (lf.get ⟨0, by omega⟩) (lf.get_mem _ _)
        have h1 : lf.get ⟨0, by omega⟩ = 1 := by simpa using this
        rw [h1] at h0
        exact absurd h0 (by norm_num)
    have harg : npArgmaxLtOne lf = some 0 :=
      npArgmaxLtOne_first lf 0 (by omega) (by omega) h0
    simp only [calculate_ice_ocean_boundary_depth]
    rw [hallb]
    simp only [Bool.false_eq_true, if_false, harg]
    rfl
  · intro j hj hj0 hbefore hat
    have hallb : lf.all (fun x => x == 1) = false := by
      rcases hb : lf.all (fun x => x == 1) with _ | _
      · rfl
      · exfalso
        have := (List.all_eq_true.mp hb) (lf.get ⟨j, hj⟩) (lf.get_mem _ _)
        have h1 : lf.get ⟨j, hj⟩ = 1 := by simpa using this
        rw [h1] at hat
        exact absurd hat (by norm_num)
    have harg : npArgmaxLtOne lf = some j := npArgmaxLtOne_first lf j hj hbefore hat
    have hjI : j < I := by omega
    have hpos : 0 < 1 - (j : ℚ) / I := by
      have hlt : (j : ℚ) < (I : ℚ) := by exact_mod_cast hjI
      have : (j : ℚ) / I < 1 := (div_lt_one hI0).mpr hlt
      linarith
    constructor
    · simp only [calculate_ice_ocean_boundary_depth]
      rw [hallb]
      simp only [Bool.false_eq_true, if_false, harg]
      rw [Option.getD_some, if_neg (by omega)]
      rw [gridEdges_getD I j (by omega)]
      congr 1
      rw [mul_one_div]
      ring
    · exact hpos

/-- Witness for claim C9: a three-cell column that is liquid in the bottom
cell and frozen from the second cell up returns the depth 2/3 of that
cell's bottom edge. -/
theorem c9_ice_ocean_boundary_depth_witness :
    calculate_ice_ocean_boundary_depth [1, 1/2, 0] (gridEdges 3)
        = Except.ok (1 - (1 : ℚ) / 3) ∧ 0 < 1 - (1 : ℚ) / 3 :=
  ((c9_ice_ocean_boundary_depth 3 (by norm_num) [1, 1/2, 0] rfl
    (by intro x hx; simp at hx; rcases hx with rfl | rfl | rfl <;> norm_num)).2.2) 1
    (by norm_num) (by norm_num)
    (by intro k hk; interval_cases k <;> norm_num)
    (by norm_num)

/-! ## Reduced thermodynamic closure
(src/celestine/enthalpy_method.py, ReducedEnthalpyMethod) -/

/-- Modelled from the spec: the class ReducedPhaseBoundaries is imported
by ReducedEnthalpyMethod but its definition is absent from the source
tree; spec section 4.2 gives the reduced liquidus as minus the bulk
salinity. -/
noncomputable def liquidusRed (S : ℝ) : ℝ := -S

/-- Modelled from the spec: reduced eutectic boundary
St (S - 1) / (1 + C) - 1, with St the Stefan number and C the
concentration ratio (spec section 4.2). -/
noncomputable def eutecticRed (C St S : ℝ) : ℝ := St * (S - 1) / (1 + C) - 1

/-- Modelled from the spec: reduced solidus boundary -1 - St
(spec section 4.2). -/
noncomputable def solidusRed (St : ℝ) : ℝ := -1 - St

/-- Embedding of the Mush branch of
ReducedEnthalpyMethod.calculate_solid_fraction: the root
(-B - sqrt(B^2 - 4 A C)) / (2 A) with A = St, B = H - St - C and
C = -(H + S). -/
noncomputable def reduced_solid_fraction_mush (C St H S : ℝ) : ℝ :=
  (1 / (2 * St)) * (-(H - St - C) - Real.sqrt ((H - St - C) ^ 2 - 4 * St * (-(H + S))))

/-- Embedding of the Liquid branch of calculate_solid_fraction: 0. -/
noncomputable def reduced_solid_fraction_liquid : ℝ := 0

/-- Embedding of the Eutectic branch of calculate_solid_fraction:
-(1 + H) / St. -/
noncomputable def reduced_solid_fraction_eutectic (St H : ℝ) : ℝ := -(1 + H) / St

/-- Embedding of the Solid branch of calculate_solid_fraction: 1. -/
noncomputable def reduced_solid_fraction_solid : ℝ := 1

/-- Embedding of the Liquid branch of
ReducedEnthalpyMethod.calculate_temperature: the enthalpy itself. -/
noncomputable def reduced_temperature_liquid (H : ℝ) : ℝ := H

/-- Embedding of the Mush branch of calculate_temperature:
enthalpy plus solid fraction times Stefan number. -/
noncomputable def reduced_temperature_mush (C St H S : ℝ) : ℝ :=
  H + reduced_solid_fraction_mush C St H S * St

/-- Embedding of the Eutectic branch of calculate_temperature: -1. -/
noncomputable def reduced_temperature_eutectic : ℝ := -1

/-- Embedding of the Solid branch of calculate_temperature: H + St. -/
noncomputable def reduced_temperature_solid (St H : ℝ) : ℝ := H + St

/-- Embedding of ReducedEnthalpyMethod.calculate_liquid_fraction:
1 minus the solid fraction. -/
noncomputable def reduced_liquid_fraction (sf : ℝ) : ℝ := 1 - sf

/-- Claim C2.  For parameters in the physical domain (positive Stefan
number, bulk salt at least minus the concentration ratio) and a cell
classified Mush, the discriminant B^2 - 4AC is nonnegative, the returned
solid fraction is a root of St x^2 + (H - St - C) x - (H + S) = 0, and
the returned temperature is H plus the solid fraction times St. -/
theorem c2_mush_quadratic (C St H S : ℝ) (hSt : 0 < St) (hSC : 0 ≤ S + C)
    (hmush : eutecticRed C St S ≤ H ∧ H < liquidusRed S) :
    0 ≤ (H - St - C) ^ 2 - 4 * St * (-(H + S)) ∧
    St * reduced_solid_fraction_mush C St H S ^ 2
        + (H - St - C) * reduced_solid_fraction_mush C St H S - (H + S) = 0 ∧
    reduced_temperature_mush C St H S
        = H + reduced_solid_fraction_mush C St H S * St := by
  have hd0 : 0 ≤ (H - St - C) ^ 2 - 4 * St * (-(H + S)) := by
    nlinarith [sq_nonneg (H + St - C), mul_nonneg hSt.le hSC]
  refine ⟨hd0, ?_, rfl⟩
  unfold reduced_solid_fraction_mush
  set r := Real.sqrt ((H - St - C) ^ 2 - 4 * St * (-(H + S))) with hr
  have hsq : r ^ 2 = (H - St - C) ^ 2 - 4 * St * (-(H + S)) := Real.sq_sqrt hd0
  field_simp
  linear_combination (2 * St ^ 2) * hsq

/-- Witness for claim C2 at St = 21/5, C = 17/100, S = 0, H = -1
(inside the Mush region). -/
theorem c2_mush_quadratic_witness :
    0 ≤ ((-1 : ℝ) - 21/5 - 17/100) ^ 2 - 4 * (21/5) * (-((-1) + 0)) ∧
    (21/5 : ℝ) * reduced_solid_fraction_mush (17/100) (21/5) (-1) 0 ^ 2
        + ((-1) - 21/5 - 17/100) * reduced_solid_fraction_mush (17/100) (21/5) (-1) 0
        - ((-1) + 0) = 0 ∧
    reduced_temperature_mush (17/100) (21/5) (-1) 0
        = (-1) + reduced_solid_fraction_mush (17/100) (21/5) (-1) 0 * (21/5) :=
  c2_mush_quadratic (17/100) (21/5) (-1) 0 (by norm_num) (by norm_num)
    (by unfold eutecticRed liquidusRed; norm_num)

lemma reduced_mush_sf_at_liquidus (C St S : ℝ) (hSt : 0 < St) (hSC : 0 ≤ S + C) :
    reduced_solid_fraction_mush C St (liquidusRed S) S = 0 := by
  unfold reduced_solid_fraction_mush liquidusRed
  rw [show ((-S) - St - C) ^ 2 - 4 * St * (-((-S) + S)) = (S + St + C) ^ 2 by ring,
    Real.sqrt_sq (by linarith)]
  field_simp
  ring

lemma reduced_mush_sf_at_eutectic (C St S : ℝ) (hSt : 0 < St) (hC : 0 ≤ C)
    (hSC : 0 ≤ S + C) :
    reduced_solid_fraction_mush C St (eutecticRed C St S) S = (1 - S) / (1 + C) := by
  have h1C : (0 : ℝ) < 1 + C := by linarith
  have hphi : 0 ≤ (S + C) / (1 + C) := div_nonneg hSC h1C.le
  unfold reduced_solid_fraction_mush eutecticRed
  have key : (St * (S - 1) / (1 + C) - 1 - St - C) ^ 2
      - 4 * St * (-((St * (S - 1) / (1 + C) - 1) + S))
      = ((1 + C) + St * ((S + C) / (1 + C))) ^ 2 := by
    field_simp
    ring
  rw [key, Real.sqrt_sq (by nlinarith [mul_nonneg hSt.le hphi])]
  field_simp
  ring

/-! ## Full phase classifier (src/celestine/phase_boundaries.py,
FullPhaseBoundaries; identical module-level functions in
src/phase_boundaries.py) -/

/-- Embedding of calculate_liquidus, per cell: minus bulk salt when gas is
at most chi (sub-saturated branch), otherwise corrected by the free gas
fraction. -/
noncomputable def liquidus (chi C S G : ℝ) : ℝ :=
  if G ≤ chi then -S else -(S + C * ((G - chi) / (1 - chi)))

/-- Embedding of calculate_eutectic, per cell, with the eutectic liquid
fraction (S + C) / (1 + C) and the sub/super saturation branch of the
source. -/
noncomputable def eutectic (chi C St S G : ℝ) : ℝ :=
  if G ≤ chi * ((S + C) / (1 + C)) then -1 - St * (1 - (S + C) / (1 + C))
  else -(1 - G + chi * ((S + C) / (1 + C)))
    - (1 - G + ((S + C) / (1 + C)) * (chi - 1)) * St

/-- Embedding of calculate_solidus, per cell. -/
noncomputable def solidus (St G : ℝ) : ℝ :=
  if G ≤ 0 then -1 - St else (1 - G) * (-1 - St)

/-- Embedding of the zero-gas mush temperature used inside
calculate_saturation: (1/2) (B - sqrt(B^2 - 4 A)) with B = H + C + St and
A = C H - St S. -/
noncomputable def mush_temperature_zero_gas (C St H S : ℝ) : ℝ :=
  (1 / 2) * ((H + C + St) - Real.sqrt ((H + C + St) ^ 2 - 4 * (C * H - St * S)))

/-- Embedding of calculate_saturation, per cell.  The source assigns the
four branches through the masks computed from the zero-gas boundaries and
numpy overwrites in the order liquid, mush, eutectic, solid; the nested
conditional below (solid, then eutectic, then mush, then liquid) realizes
the same cell value, because the four zero-gas intervals cover every
enthalpy and a later assignment wins for any cell matching two masks. -/
noncomputable def calculate_saturation (chi C St H S : ℝ) : ℝ :=
  if H < solidus St 0 then 0
  else if H < eutectic chi C St S 0 then chi * (1 + (H + 1) / St)
  else if H < liquidus chi C S 0 then
    chi * (1 - ((mush_temperature_zero_gas C St H S - H) / St))
  else chi

/-- Embedding of calculate_max_salt, per cell. -/
noncomputable def calculate_max_salt (chi C G : ℝ) : ℝ :=
  if G ≤ chi then 1 else 1 - (G - chi) / (1 - chi) * (1 + C)

/-- The four thermal interval conditions shared by the classifiers, in the
order of the source masks: is_liquid is enthalpy at least the liquidus,
is_mush is the half-open interval from the eutectic boundary up to the
liquidus, is_eutectic from the solidus up to the eutectic boundary, and
is_solid below the solidus. -/
def intervalMask (liq eut sol H : ℝ) : Fin 4 → Prop := fun i =>
  match i.val with
  | 0 => liq ≤ H
  | 1 => eut ≤ H ∧ H < liq
  | 2 => sol ≤ H ∧ H < eut
  | _ => H < sol

lemma intervalMask_partition (liq eut sol H : ℝ) (h1 : sol ≤ eut) (h2 : eut ≤ liq) :
    ∃! i : Fin 4, intervalMask liq eut sol H i := by
  rcases le_or_lt liq H with hL | hL
  · refine ⟨0, hL, fun j hj => ?_⟩
    fin_cases j
    · rfl
    · exact absurd hL (not_le.mpr hj.2)
    · exact absurd hL (not_le.mpr (lt_of_lt_of_le hj.2 h2))
    · exact absurd hL (not_le.mpr (lt_of_lt_of_le hj (le_trans h1 h2)))
  · rcases le_or_lt eut H with hE | hE
    · refine ⟨1, ⟨hE, hL⟩, fun j hj => ?_⟩
      fin_cases j
      · exact absurd hj (not_le.mpr hL)
      · rfl
      · exact absurd hE (not_le.mpr hj.2)
      · exact absurd hE (not_le.mpr (lt_of_lt_of_le hj h1))
    · rcases le_or_lt sol H with hS | hS
      · refine ⟨2, ⟨hS, hE⟩, fun j hj => ?_⟩
        fin_cases j
        · exact absurd hj (not_le.mpr (lt_of_lt_of_le hE h2))
        · exact absurd hj.1 (not_le.mpr hE)
        · rfl
        · exact absurd hS (not_le.mpr hj)
      · refine ⟨3, hS, fun j hj => ?_⟩
        fin_cases j
        · exact absurd hj (not_le.mpr (lt_of_lt_of_le hS (le_trans h1 h2)))
        · exact absurd hj.1 (not_le.mpr (lt_of_lt_of_le hS h1))
        · exact absurd hj.1 (not_le.mpr hS)
        · rfl

/-- Embedding of FullPhaseBoundaries.get_phase_masks, per cell: the source
returns the eight masks l, L, m, M, e, E, s, S obtained by intersecting
the four thermal masks with the sub-saturated mask (gas at most the
saturation curve) and its complement; mask index 2t carries thermal
condition t with is_sub, index 2t+1 with is_super. -/
noncomputable def get_phase_masks (chi C St H S G : ℝ) : Fin 8 → Prop := fun i =>
  intervalMask (liquidus chi C S G) (eutectic chi C St S G) (solidus St G) H
      ⟨i.val / 2, by omega⟩ ∧
    (if i.val % 2 = 0 then G ≤ calculate_saturation chi C St H S
     else ¬G ≤ calculate_saturation chi C St H S)

/-- Modelled from the spec: the class ReducedPhaseBoundaries is imported
by the reduced enthalpy method but absent from the source tree; spec
section 4.2 classifies Liquid when H is at least liquidus(S), Mush on
the half-open interval from eutectic(S) to liquidus(S), Eutectic from
solidus to eutectic(S), Solid below solidus, which is intervalMask over
the reduced boundary curves. -/
noncomputable def reduced_get_phase_masks (C St H S : ℝ) : Fin 4 → Prop :=
  intervalMask (liquidusRed S) (eutecticRed C St S) (solidusRed St) H

lemma pair_partition (T : Fin 4 → Prop) (P : Prop) (hT : ∃! t, T t) :
    ∃! i : Fin 8,
      (T ⟨i.val / 2, by omega⟩ ∧ if i.val % 2 = 0 then P else ¬P) := by
  classical
  obtain ⟨t, ht, huniq⟩ := hT
  by_cases hP : P
  · refine ⟨⟨2 * t.val, by omega⟩, ⟨?_, ?_⟩, ?_⟩
    · have he : (⟨2 * t.val / 2, by omega⟩ : Fin 4) = t :=
        Fin.ext (show 2 * t.val / 2 = t.val by omega)
      rw [he]
      exact ht
    · rw [if_pos (show 2 * t.val % 2 = 0 by omega)]
      exact hP
    · intro j hj
      obtain ⟨hjT, hjP⟩ := hj
      have hmod : j.val % 2 = 0 := by
        by_contra hm
        rw [if_neg hm] at hjP
        exact hjP hP
      have hdiv : (⟨j.val / 2, by omega⟩ : Fin 4) = t := huniq _ hjT
      have hval : j.val / 2 = t.val := congrArg Fin.val hdiv
      exact Fin.ext (show j.val = 2 * t.val by omega)
  · refine ⟨⟨2 * t.val + 1, by omega⟩, ⟨?_, ?_⟩, ?_⟩
    · have he : (⟨(2 * t.val + 1) / 2, by omega⟩ : Fin 4) = t :=
        Fin.ext (show (2 * t.val + 1) / 2 = t.val by omega)
      rw [he]
      exact ht
    · rw [if_neg (show ¬(2 * t.val + 1) % 2 = 0 by omega)]
      exact hP
    · intro j hj
      obtain ⟨hjT, hjP⟩ := hj
      have hmod : j.val % 2 = 1 := by
        by_contra hm
        have hm0 : j.val % 2 = 0 := by omega
        rw [if_pos hm0] at hjP
        exact hP hjP
      have hdiv : (⟨j.val / 2, by omega⟩ : Fin 4) = t := huniq _ hjT
      have hval : j.val / 2 = t.val := congrArg Fin.val hdiv
      exact Fin.ext (show j.val = 2 * t.val + 1 by omega)

lemma eut_le_liq (chi C St S G : ℝ)
    (hchi0 : 0 < chi) (hchi1 : chi < 1) (hC : 0 ≤ C) (hSt : 0 ≤ St)
    (hG0 : 0 ≤ G) (hG1 : G ≤ 1)
    (hSlo : -C ≤ S) (hShi : S ≤ calculate_max_salt chi C G) :
    eutectic chi C St S G ≤ liquidus chi C S G := by
  have h1C : (0 : ℝ) < 1 + C := by linarith
  have hSeq : (S + C) / (1 + C) * (1 + C) = S + C := by field_simp
  have hphi0 : 0 ≤ (S + C) / (1 + C) := div_nonneg (by linarith) h1C.le
  set phi := (S + C) / (1 + C) with hphi
  by_cases hGchi : G ≤ chi
  · have hS1 : S ≤ 1 := by
      unfold calculate_max_salt at hShi
      rwa [if_pos hGchi] at hShi
    have hphi1 : phi ≤ 1 := by
      rw [hphi, div_le_one h1C]
      linarith
    rw [liquidus, if_pos hGchi]
    by_cases hbc : G ≤ chi * phi
    · rw [eutectic, if_pos hbc]
      nlinarith [mul_nonneg hSt (sub_nonneg.mpr hphi1)]
    · rw [eutectic, if_neg hbc]
      have t1 : 0 ≤ C * (1 - phi) := mul_nonneg hC (by linarith)
      have t2 : 0 ≤ (chi - G) * (1 + St) :=
        mul_nonneg (by linarith) (by linarith)
      have t3 : 0 ≤ (1 - phi) * ((1 - chi) * (1 + St)) :=
        mul_nonneg (by linarith) (mul_nonneg (by linarith) (by linarith))
      nlinarith [hSeq]
  · push_neg at hGchi
    have hmax : S ≤ 1 - (G - chi) / (1 - chi) * (1 + C) := by
      unfold calculate_max_salt at hShi
      rwa [if_neg (not_le.mpr hGchi)] at hShi
    have hchid : (0 : ℝ) < 1 - chi := by linarith
    set g := (G - chi) / (1 - chi) with hgdef
    have hgpos : 0 < g := div_pos (by linarith) hchid
    have hg1 : g ≤ 1 := by
      rw [hgdef, div_le_one hchid]
      linarith
    have h1G : 1 - G = (1 - chi) * (1 - g) := by
      rw [hgdef]
      field_simp
    have hphile : phi ≤ 1 - g := by
      rw [hphi, div_le_iff₀ h1C]
      nlinarith
    have hbc : ¬G ≤ chi * phi := by
      push_neg
      calc chi * phi ≤ chi * 1 := mul_le_mul_of_nonneg_left (by nlinarith) hchi0.le
        _ = chi := mul_one chi
        _ < G := hGchi
    rw [liquidus, if_neg (not_le.mpr hGchi), eutectic, if_neg hbc]
    have t1 : 0 ≤ C * (1 - phi - g) := mul_nonneg hC (by linarith)
    have t2 : 0 ≤ ((1 - chi) * (1 + St)) * (1 - g - phi) :=
      mul_nonneg (mul_nonneg (by linarith) (by linarith)) (by linarith)
    nlinarith [hSeq, h1G]

lemma sol_le_eut (chi C St S G : ℝ)
    (hchi0 : 0 < chi) (hchi1 : chi < 1) (hC : 0 ≤ C) (hSt : 0 ≤ St)
    (hphys : chi * (1 + St) ≤ St) (hG0 : 0 ≤ G)
    (hSlo : -C ≤ S) :
    solidus St G ≤ eutectic chi C St S G := by
  have h1C : (0 : ℝ) < 1 + C := by linarith
  have hphi0 : 0 ≤ (S + C) / (1 + C) := div_nonneg (by linarith) h1C.le
  set phi := (S + C) / (1 + C) with hphi
  by_cases hGz : G ≤ 0
  · have hGeq : G = 0 := le_antisymm hGz hG0
    rw [solidus, if_pos hGz, eutectic,
      if_pos (by rw [hGeq]; exact mul_nonneg hchi0.le hphi0)]
    nlinarith [mul_nonneg hSt hphi0]
  · push_neg at hGz
    rw [solidus, if_neg (not_le.mpr hGz)]
    by_cases hbc : G ≤ chi * phi
    · rw [eutectic, if_pos hbc]
      have t1 : G * (1 + St) ≤ chi * phi * (1 + St) :=
        mul_le_mul_of_nonneg_right hbc (by linarith)
      have t2 : phi * (chi * (1 + St)) ≤ phi * St :=
        mul_le_mul_of_nonneg_left hphys hphi0
      nlinarith
    · rw [eutectic, if_neg hbc]
      have t2 : phi * (chi * (1 + St)) ≤ phi * St :=
        mul_le_mul_of_nonneg_left hphys hphi0
      nlinarith

lemma max_salt_le_one (chi C G : ℝ) (hchi0 : 0 ≤ chi) (hchi1 : chi < 1)
    (hC : 0 ≤ C) : calculate_max_salt chi C G ≤ 1 := by
  unfold calculate_max_salt
  by_cases h : G ≤ chi
  · rw [if_pos h]
  · rw [if_neg h]
    push_neg at h
    have : 0 ≤ (G - chi) / (1 - chi) * (1 + C) :=
      mul_nonneg (div_nonneg (by linarith) (by linarith)) (by linarith)
    linarith

lemma solRed_le_eutRed (C St S : ℝ) (hSt : 0 ≤ St) (hC : 0 ≤ C)
    (hSlo : -C ≤ S) : solidusRed St ≤ eutecticRed C St S := by
  unfold solidusRed eutecticRed
  have h1C : (0 : ℝ) < 1 + C := by linarith
  have key : -St ≤ St * (S - 1) / (1 + C) := by
    rw [le_div_iff₀ h1C]
    nlinarith [mul_nonneg hSt (show (0 : ℝ) ≤ S + C by linarith)]
  linarith

lemma eutRed_le_liqRed (C St S : ℝ) (hSt : 0 ≤ St) (hC : 0 ≤ C)
    (hS1 : S ≤ 1) : eutecticRed C St S ≤ liquidusRed S := by
  unfold eutecticRed liquidusRed
  have h1C : (0 : ℝ) < 1 + C := by linarith
  have key : St * (S - 1) / (1 + C) ≤ 0 :=
    div_nonpos_iff.mpr (Or.inr ⟨by nlinarith, h1C.le⟩)
  linarith

/-- Claim C1.  For every state (H, S, G) in the valid physical domain
(gas fraction between 0 and 1, bulk salt between minus the concentration
ratio and the maximal salt for the given gas content) and physical
parameters (expansion coefficient strictly between 0 and 1, nonnegative
concentration ratio and Stefan number, and chi (1 + St) at most St, which
holds throughout the physical regime, for instance at the defaults
chi = 0.029, St = 4.2), the phase masks form a partition of the cell
index set: exactly one of the four reduced masks Liquid, Mush, Eutectic,
Solid holds, and exactly one of the eight sub/super-saturated masks of
the full classifier holds. -/
theorem c1_phase_masks_partition (chi C St H S G : ℝ)
    (hchi0 : 0 < chi) (hchi1 : chi < 1) (hC : 0 ≤ C) (hSt : 0 ≤ St)
    (hphys : chi * (1 + St) ≤ St) (hG0 : 0 ≤ G) (hG1 : G ≤ 1)
    (hSlo : -C ≤ S) (hShi : S ≤ calculate_max_salt chi C G) :
    (∃! i : Fin 4, reduced_get_phase_masks C St H S i) ∧
    (∃! i : Fin 8, get_phase_masks chi C St H S G i) := by
  have hS1 : S ≤ 1 := le_trans hShi (max_salt_le_one chi C G hchi0.le hchi1 hC)
  constructor
  · exact intervalMask_partition _ _ _ _ (solRed_le_eutRed C St S hSt hC hSlo)
      (eutRed_le_liqRed C St S hSt hC hS1)
  · exact pair_partition _ _ (intervalMask_partition _ _ _ _
      (sol_le_eut chi C St S G hchi0 hchi1 hC hSt hphys hG0 hSlo)
      (eut_le_liq chi C St S G hchi0 hchi1 hC hSt hG0 hG1 hSlo hShi))

/-- Witness for claim C1 at the default physical parameters
chi = 29/1000, C = 17/100, St = 21/5 and the state H = -1, S = 1/10,
G = 1/100. -/
theorem c1_phase_masks_partition_witness :
    (∃! i : Fin 4, reduced_get_phase_masks (17/100) (21/5) (-1) (1/10) i) ∧
    (∃! i : Fin 8,
      get_phase_masks (29/1000) (17/100) (21/5) (-1) (1/10) (1/100) i) :=
  c1_phase_masks_partition (29/1000) (17/100) (21/5) (-1) (1/10) (1/100)
    (by norm_num) (by norm_num) (by norm_num) (by norm_num) (by norm_num)
    (by norm_num) (by norm_num) (by norm_num)
    (by unfold calculate_max_salt; rw [if_pos (by norm_num)]; norm_num)

/-! ## Full closure per-phase closed forms
(src/celestine/enthalpy_method.py, FullEnthalpyMethod; identical
module-level functions in src/enthalpy_method.py) -/

/-- Embedding of the sub-saturated liquid branch of
FullEnthalpyMethod.calculate_temperature: the enthalpy itself. -/
noncomputable def full_temperature_l (H : ℝ) : ℝ := H

/-- Embedding of the super-saturated liquid branch of
calculate_temperature. -/
noncomputable def full_temperature_L (chi G H : ℝ) : ℝ :=
  H / (1 - (G - chi) / (1 - chi))

/-- Embedding of the sub-saturated mush branch of calculate_temperature,
which is the same quadratic solve as the saturation helper. -/
noncomputable def full_temperature_m (C St H S : ℝ) : ℝ :=
  mush_temperature_zero_gas C St H S

/-- Embedding of the eutectic branches of calculate_temperature: -1. -/
noncomputable def full_temperature_e : ℝ := -1

/-- Embedding of the sub-saturated solid branch of
calculate_temperature: H + St. -/
noncomputable def full_temperature_s (St H : ℝ) : ℝ := H + St

/-- Embedding of the super-saturated solid branch of
calculate_temperature: H / (1 - G) + St. -/
noncomputable def full_temperature_S_phase (St G H : ℝ) : ℝ := H / (1 - G) + St

/-- Embedding of the sub-saturated liquid branch of
FullEnthalpyMethod.calculate_liquid_fraction: 1. -/
noncomputable def full_liquid_fraction_l : ℝ := 1

/-- Embedding of the super-saturated liquid branch of
calculate_liquid_fraction. -/
noncomputable def full_liquid_fraction_L (chi G : ℝ) : ℝ :=
  1 - (G - chi) / (1 - chi)

/-- Embedding of the sub-saturated mush branch of
calculate_liquid_fraction, in terms of the already computed mush
temperature. -/
noncomputable def full_liquid_fraction_m (St H T : ℝ) : ℝ := 1 - (T - H) / St

/-- Embedding of the super-saturated mush branch of
calculate_liquid_fraction, in terms of the already computed mush
temperature. -/
noncomputable def full_liquid_fraction_M (C S T : ℝ) : ℝ := (S + C) / (C - T)

/-- Embedding of the sub-saturated eutectic branch of
calculate_liquid_fraction. -/
noncomputable def full_liquid_fraction_e (St H : ℝ) : ℝ := (H + 1) / St + 1

/-- Embedding of the super-saturated eutectic branch of
calculate_liquid_fraction. -/
noncomputable def full_liquid_fraction_E (chi St G H : ℝ) : ℝ :=
  ((1 - G) * (1 + St) + H) / (St * (1 - chi) - chi)

/-- Embedding of the solid branches of calculate_liquid_fraction: 0. -/
noncomputable def full_liquid_fraction_s : ℝ := 0

/-- Embedding of the super-saturated mush branch of
calculate_temperature: the quadratic solve with gas-fraction dependent
coefficients coeff3 = 1 - G, coeff4 and coeff5 of the source. -/
noncomputable def full_temperature_M (chi C St H S G : ℝ) : ℝ :=
  (1 / (2 * (1 - G))) * (((C + St) * (1 - G) + H + S * chi + C * chi)
    - Real.sqrt (((C + St) * (1 - G) + H + S * chi + C * chi) ^ 2
      - 4 * (1 - G) * (C * H - (1 - chi) * St * S - C * St * (G - chi))))

lemma super_liquidus_temp (chi C St S G H : ℝ) (hchi0 : 0 < chi) (hchi1 : chi < 1)
    (hC : 0 ≤ C) (hSt : 0 ≤ St) (hSC : 0 ≤ S + C) (hG : chi < G) (hG1 : G < 1)
    (hH : H = -(S + C * ((G - chi) / (1 - chi)))) :
    full_temperature_M chi C St H S G = H / (1 - (G - chi) / (1 - chi)) := by
  have hchid : (0 : ℝ) < 1 - chi := by linarith
  have h1G : (0 : ℝ) < 1 - G := by linarith
  set g := (G - chi) / (1 - chi) with hgdef
  have hg0 : 0 < g := div_pos (by linarith) hchid
  have hg1 : g < 1 := by
    rw [hgdef, div_lt_one hchid]
    linarith
  have h1g : (0 : ℝ) < 1 - g := by linarith
  have h1Geq : 1 - G = (1 - chi) * (1 - g) := by
    rw [hgdef]
    field_simp
  set R := (C + St) * (1 - G) + S * (1 - chi) + C * (chi * (1 - g) + g * (1 - chi))
    with hRdef
  have hR0 : 0 ≤ R := by
    have t0 : 0 ≤ (S + C) * (1 - chi) := mul_nonneg hSC hchid.le
    have t1 : 0 ≤ St * ((1 - chi) * (1 - g)) :=
      mul_nonneg hSt (mul_nonneg hchid.le (by linarith))
    have t2 : 0 ≤ C * (chi * (1 - g)) :=
      mul_nonneg hC (mul_nonneg hchi0.le (by linarith))
    nlinarith [h1Geq]
  have key : ((C + St) * (1 - G) + H + S * chi + C * chi) ^ 2
      - 4 * (1 - G) * (C * H - (1 - chi) * St * S - C * St * (G - chi)) = R ^ 2 := by
    rw [hRdef, hH, hgdef]
    field_simp
    ring
  unfold full_temperature_M
  rw [key, Real.sqrt_sq hR0]
  have hc4R : (C + St) * (1 - G) + H + S * chi + C * chi - R
      = -2 * (1 - chi) * (S + C * g) := by
    rw [hRdef, hH]
    ring
  rw [hc4R, hH, h1Geq]
  field_simp
  ring

lemma super_eutectic_temp (chi C St S G H : ℝ) (hchi0 : 0 < chi) (hchi1 : chi < 1)
    (hC : 0 ≤ C) (hSt : 0 ≤ St) (hSC : 0 ≤ S + C) (hG1 : G < 1)
    (hH : H = -(1 - G + chi * ((S + C) / (1 + C)))
      - (1 - G + ((S + C) / (1 + C)) * (chi - 1)) * St) :
    full_temperature_M chi C St H S G = -1 := by
  have h1C : (0 : ℝ) < 1 + C := by linarith
  have h1G : (0 : ℝ) < 1 - G := by linarith
  set phi := (S + C) / (1 + C) with hphidef
  have hphi0 : 0 ≤ phi := div_nonneg hSC h1C.le
  have hphieq : phi * (1 + C) = S + C := by
    rw [hphidef]
    field_simp
  set R := (1 - G) * (1 + C) + phi * (1 - chi) * St + C * chi * phi with hRdef
  have hR0 : 0 ≤ R := by
    have t1 : 0 ≤ (1 - G) * (1 + C) := mul_nonneg h1G.le h1C.le
    have t2 : 0 ≤ phi * (1 - chi) * St :=
      mul_nonneg (mul_nonneg hphi0 (by linarith)) hSt
    have t3 : 0 ≤ C * chi * phi := mul_nonneg (mul_nonneg hC hchi0.le) hphi0
    linarith
  have key : ((C + St) * (1 - G) + H + S * chi + C * chi) ^ 2
      - 4 * (1 - G) * (C * H - (1 - chi) * St * S - C * St * (G - chi)) = R ^ 2 := by
    rw [hRdef, hH, hphidef]
    field_simp
    ring
  unfold full_temperature_M
  rw [key, Real.sqrt_sq hR0]
  have hc4R : (C + St) * (1 - G) + H + S * chi + C * chi - R = 2 * (1 - G) * (-1) := by
    rw [hRdef, hH]
    linear_combination (-chi) * hphieq
  rw [hc4R]
  field_simp

lemma zero_gas_mush_temp_at_liquidus (C St S : ℝ) (hSt : 0 < St)
    (hSC : 0 ≤ S + C) : mush_temperature_zero_gas C St (-S) S = -S := by
  unfold mush_temperature_zero_gas
  rw [show ((-S) + C + St) ^ 2 - 4 * (C * (-S) - St * S) = (S + C + St) ^ 2 by ring,
    Real.sqrt_sq (by linarith)]
  ring

lemma zero_gas_mush_temp_at_eutectic (C St S : ℝ) (hSt : 0 < St) (hC : 0 ≤ C)
    (hSC : 0 ≤ S + C) :
    mush_temperature_zero_gas C St (-1 - St * (1 - (S + C) / (1 + C))) S = -1 := by
  have h1C : (0 : ℝ) < 1 + C := by linarith
  have hphi0 : 0 ≤ (S + C) / (1 + C) := div_nonneg hSC h1C.le
  unfold mush_temperature_zero_gas
  have key : ((-1 - St * (1 - (S + C) / (1 + C))) + C + St) ^ 2
      - 4 * (C * (-1 - St * (1 - (S + C) / (1 + C))) - St * S)
      = (C + St * ((S + C) / (1 + C)) + 1) ^ 2 := by
    field_simp
    ring
  rw [key, Real.sqrt_sq (by nlinarith [mul_nonneg hSt.le hphi0])]
  ring

lemma liquidus_sub_branch (chi C S G : ℝ) (hGchi : G ≤ chi) :
    liquidus chi C S G = -S := by
  unfold liquidus
  rw [if_pos hGchi]

lemma eutectic_sub_branch (chi C St S G : ℝ)
    (hbc : G ≤ chi * ((S + C) / (1 + C))) :
    eutectic chi C St S G = -1 - St * (1 - (S + C) / (1 + C)) := by
  unfold eutectic
  rw [if_pos hbc]

lemma solidus_sub_branch (St G : ℝ) (hGz : G ≤ 0) : solidus St G = -1 - St := by
  unfold solidus
  rw [if_pos hGz]

lemma liquidus_super (chi C S G : ℝ) (hG : chi < G) :
    liquidus chi C S G = -(S + C * ((G - chi) / (1 - chi))) := by
  unfold liquidus
  rw [if_neg (not_le.mpr hG)]

lemma eutectic_super_branch (chi C St S G : ℝ)
    (hbc : chi * ((S + C) / (1 + C)) < G) :
    eutectic chi C St S G = -(1 - G + chi * ((S + C) / (1 + C)))
      - (1 - G + ((S + C) / (1 + C)) * (chi - 1)) * St := by
  unfold eutectic
  rw [if_neg (not_le.mpr hbc)]

lemma solidus_super (St G : ℝ) (hG0 : 0 < G) :
    solidus St G = (1 - G) * (-1 - St) := by
  unfold solidus
  rw [if_neg (not_le.mpr hG0)]

lemma super_liquidus_lf (chi C St S G : ℝ) (hchi0 : 0 < chi) (hchi1 : chi < 1)
    (hC : 0 ≤ C) (hSt : 0 ≤ St) (hSC : 0 < S + C) (hG : chi < G) (hG1 : G < 1) :
    full_liquid_fraction_M C S (full_temperature_M chi C St (liquidus chi C S G) S G)
      = full_liquid_fraction_L chi G := by
  rw [liquidus_super chi C S G hG,
    super_liquidus_temp chi C St S G _ hchi0 hchi1 hC hSt hSC.le hG hG1 rfl]
  unfold full_liquid_fraction_M full_liquid_fraction_L
  have hchid : (0 : ℝ) < 1 - chi := by linarith
  have hg1 : (G - chi) / (1 - chi) < 1 := by
    rw [div_lt_one hchid]
    linarith
  have h1g : (0 : ℝ) < 1 - (G - chi) / (1 - chi) := by linarith
  have h1G : (0 : ℝ) < 1 - G := by linarith
  have hden : C - -(S + C * ((G - chi) / (1 - chi))) / (1 - (G - chi) / (1 - chi))
      = (C + S) / (1 - (G - chi) / (1 - chi)) := by
    field_simp [hchid.ne', h1g.ne', h1G.ne']
    ring
  rw [hden, div_div_eq_mul_div, show (C + S : ℝ) = S + C by ring,
    mul_div_cancel_left₀ _ (by linarith : (S + C : ℝ) ≠ 0)]

lemma super_eutectic_lf (chi C St S G : ℝ) (hchi0 : 0 < chi) (hchi1 : chi < 1)
    (hC : 0 ≤ C) (hSt : 0 ≤ St) (hSC : 0 ≤ S + C)
    (hbc : chi * ((S + C) / (1 + C)) < G) (hG1 : G < 1)
    (hphys : chi * (1 + St) < St) :
    full_liquid_fraction_M C S (full_temperature_M chi C St (eutectic chi C St S G) S G)
      = full_liquid_fraction_E chi St G (eutectic chi C St S G) := by
  rw [eutectic_super_branch chi C St S G hbc,
    super_eutectic_temp chi C St S G _ hchi0 hchi1 hC hSt hSC hG1 rfl]
  unfold full_liquid_fraction_M full_liquid_fraction_E
  have h1C : (0 : ℝ) < 1 + C := by linarith
  have hden : (0 : ℝ) < St * (1 - chi) - chi := by nlinarith
  rw [show C - (-1 : ℝ) = C + 1 by ring, div_eq_div_iff (by linarith) hden.ne']
  field_simp
  ring

/-- Claim C3.  Temperature and liquid fraction are continuous in the bulk
enthalpy across every internal phase boundary of the closure, for every
salt and every gas content G in the valid physical domain (0 ≤ G < 1):
at each of the liquidus, the eutectic boundary and the solidus, the
closed forms of the two phases actually adjacent there agree exactly at
the boundary enthalpy, so (each branch being a composition of continuous
maps) there is no jump.  The first group treats the reduced closure.
The remaining groups treat the full closure, one boundary each, split on
the classifier branch that holds at the given G: at the liquidus the
sub-saturated pair l/m applies when G ≤ chi and the super-saturated pair
L/M when chi < G; at the eutectic boundary m/e applies when G is at most
chi times the eutectic liquid fraction and M/E above it; at the solidus
e/s applies when G ≤ 0 and E/S when 0 < G. -/
theorem c3_closure_continuity (chi C St S G : ℝ)
    (hchi0 : 0 < chi) (hchi1 : chi < 1) (hC : 0 ≤ C) (hSt : 0 < St)
    (hSC : 0 < S + C) (hG0 : 0 ≤ G) (hG1 : G < 1)
    (hphys : chi * (1 + St) < St) :
    ((reduced_temperature_mush C St (liquidusRed S) S
        = reduced_temperature_liquid (liquidusRed S) ∧
      reduced_liquid_fraction (reduced_solid_fraction_mush C St (liquidusRed S) S)
        = reduced_liquid_fraction reduced_solid_fraction_liquid) ∧
     (reduced_temperature_mush C St (eutecticRed C St S) S
        = reduced_temperature_eutectic ∧
      reduced_liquid_fraction (reduced_solid_fraction_mush C St (eutecticRed C St S) S)
        = reduced_liquid_fraction
            (reduced_solid_fraction_eutectic St (eutecticRed C St S))) ∧
     (reduced_temperature_eutectic = reduced_temperature_solid St (solidusRed St) ∧
      reduced_liquid_fraction (reduced_solid_fraction_eutectic St (solidusRed St))
        = reduced_liquid_fraction reduced_solid_fraction_solid)) ∧
    (((G ≤ chi →
        (full_temperature_m C St (liquidus chi C S G) S
            = full_temperature_l (liquidus chi C S G) ∧
          full_liquid_fraction_m St (liquidus chi C S G)
              (full_temperature_m C St (liquidus chi C S G) S)
            = full_liquid_fraction_l)) ∧
      (chi < G →
        (full_temperature_M chi C St (liquidus chi C S G) S G
            = full_temperature_L chi G (liquidus chi C S G) ∧
          full_liquid_fraction_M C S
              (full_temperature_M chi C St (liquidus chi C S G) S G)
            = full_liquid_fraction_L chi G))) ∧
     ((G ≤ chi * ((S + C) / (1 + C)) →
        (full_temperature_m C St (eutectic chi C St S G) S = full_temperature_e ∧
          full_liquid_fraction_m St (eutectic chi C St S G)
              (full_temperature_m C St (eutectic chi C St S G) S)
            = full_liquid_fraction_e St (eutectic chi C St S G))) ∧
      (chi * ((S + C) / (1 + C)) < G →
        (full_temperature_M chi C St (eutectic chi C St S G) S G
            = full_temperature_e ∧
          full_liquid_fraction_M C S
              (full_temperature_M chi C St (eutectic chi C St S G) S G)
            = full_liquid_fraction_E chi St G (eutectic chi C St S G)))) ∧
     ((G ≤ 0 →
        (full_temperature_e = full_temperature_s St (solidus St G) ∧
          full_liquid_fraction_e St (solidus St G) = full_liquid_fraction_s)) ∧
      (0 < G →
        (full_temperature_e = full_temperature_S_phase St G (solidus St G) ∧
          full_liquid_fraction_E chi St G (solidus St G)
            = full_liquid_fraction_s)))) := by
  have h1C : (0 : ℝ) < 1 + C := by linarith
  refine ⟨⟨⟨?_, ?_⟩, ⟨?_, ?_⟩, ⟨?_, ?_⟩⟩, ⟨?_, ?_⟩, ⟨?_, ?_⟩, ⟨?_, ?_⟩⟩
  · unfold reduced_temperature_mush reduced_temperature_liquid
    rw [reduced_mush_sf_at_liquidus C St S hSt hSC.le]
    ring
  · rw [reduced_mush_sf_at_liquidus C St S hSt hSC.le]
    rfl
  · unfold reduced_temperature_mush reduced_temperature_eutectic
    rw [reduced_mush_sf_at_eutectic C St S hSt hC hSC.le]
    unfold eutecticRed
    field_simp
    ring
  · rw [reduced_mush_sf_at_eutectic C St S hSt hC hSC.le]
    unfold reduced_liquid_fraction reduced_solid_fraction_eutectic eutecticRed
    field_simp
    ring
  · unfold reduced_temperature_eutectic reduced_temperature_solid solidusRed
    ring
  · unfold reduced_liquid_fraction reduced_solid_fraction_eutectic solidusRed
      reduced_solid_fraction_solid
    field_simp
  · intro hGchi
    rw [liquidus_sub_branch chi C S G hGchi]
    constructor
    · unfold full_temperature_m full_temperature_l
      exact zero_gas_mush_temp_at_liquidus C St S hSt hSC.le
    · unfold full_temperature_m full_liquid_fraction_m full_liquid_fraction_l
      rw [zero_gas_mush_temp_at_liquidus C St S hSt hSC.le]
      simp
  · intro hG
    constructor
    · rw [liquidus_super chi C S G hG,
        super_liquidus_temp chi C St S G _ hchi0 hchi1 hC hSt.le hSC.le hG hG1 rfl]
      unfold full_temperature_L
      rfl
    · exact super_liquidus_lf chi C St S G hchi0 hchi1 hC hSt.le hSC hG hG1
  · intro hbc
    rw [eutectic_sub_branch chi C St S G hbc]
    constructor
    · unfold full_temperature_m full_temperature_e
      exact zero_gas_mush_temp_at_eutectic C St S hSt hC hSC.le
    · unfold full_temperature_m full_liquid_fraction_m full_liquid_fraction_e
      rw [zero_gas_mush_temp_at_eutectic C St S hSt hC hSC.le]
      field_simp
      ring
  · intro hbc
    constructor
    · rw [eutectic_super_branch chi C St S G hbc]
      unfold full_temperature_e
      exact super_eutectic_temp chi C St S G _ hchi0 hchi1 hC hSt.le hSC.le hG1 rfl
    · exact super_eutectic_lf chi C St S G hchi0 hchi1 hC hSt.le hSC.le hbc hG1 hphys
  · intro hGz
    rw [solidus_sub_branch St G hGz]
    constructor
    · unfold full_temperature_e full_temperature_s
      ring
    · unfold full_liquid_fraction_e full_liquid_fraction_s
      rw [show ((-1 - St) + 1 : ℝ) = -St by ring, neg_div, div_self hSt.ne']
      ring
  · intro hGpos
    rw [solidus_super St G hGpos]
    constructor
    · unfold full_temperature_e full_temperature_S_phase
      have h1G : (0 : ℝ) < 1 - G := by linarith
      field_simp
    · unfold full_liquid_fraction_E full_liquid_fraction_s
      rw [show ((1 - G) * (1 + St) + (1 - G) * (-1 - St) : ℝ) = 0 by ring, zero_div]

/-- Witness for claim C3 at chi = 29/1000, C = 17/100, St = 21/5,
S = 1/2 and the sub-saturated gas content G = 29/2000 (half of chi):
the mush and eutectic closed forms agree at the eutectic boundary and the
super-saturated eutectic and solid closed forms agree at the solidus. -/
theorem c3_closure_continuity_witness :
    (full_temperature_m (17/100) (21/5)
        (eutectic (29/1000) (17/100) (21/5) (1/2) (29/2000)) (1/2)
      = full_temperature_e ∧
     full_liquid_fraction_m (21/5)
        (eutectic (29/1000) (17/100) (21/5) (1/2) (29/2000))
        (full_temperature_m (17/100) (21/5)
          (eutectic (29/1000) (17/100) (21/5) (1/2) (29/2000)) (1/2))
      = full_liquid_fraction_e (21/5)
          (eutectic (29/1000) (17/100) (21/5) (1/2) (29/2000))) ∧
    (full_temperature_e
      = full_temperature_S_phase (21/5) (29/2000) (solidus (21/5) (29/2000)) ∧
     full_liquid_fraction_E (29/1000) (21/5) (29/2000) (solidus (21/5) (29/2000))
      = full_liquid_fraction_s) :=
  ⟨(c3_closure_continuity (29/1000) (17/100) (21/5) (1/2) (29/2000)
      (by norm_num) (by norm_num) (by norm_num) (by norm_num) (by norm_num)
      (by norm_num) (by norm_num) (by norm_num)).2.2.1.1 (by norm_num),
   (c3_closure_continuity (29/1000) (17/100) (21/5) (1/2) (29/2000)
      (by norm_num) (by norm_num) (by norm_num) (by norm_num) (by norm_num)
      (by norm_num) (by norm_num) (by norm_num)).2.2.2.2 (by norm_num)⟩

end Seaice3p
